import Mathlib

/-!
Verification of the replication measurement harness (`analyze.py`).

The script drives an external leader/follower replicated key-value store
over HTTP.  We embed its pure logic shallowly: network interactions
(HTTP responses, wall-clock timings, synthesized values) become explicit
oracle parameters, latencies become rationals, and JSON datasets become
association lists from string keys to string values, mirroring the
Python dictionaries they are parsed into.
-/

set_option autoImplicit false

namespace Replication

/-- A node's dataset as returned by `/dump`: a key-to-value mapping,
modelled as an association list (Python `dict` iteration order). -/
abbrev Dataset := List (String × String)

/-- Python `dict` lookup (`d[k]` / `d.get(k)`): first entry whose key
equals `k`. -/
def dict_get : Dataset → String → Option String
  | [], _ => none
  | (a, b) :: rest, k => if a = k then some b else dict_get rest k

/-- Outcome of an HTTP GET as seen by the script: a response with a
status code and parsed JSON body, or a raised exception (timeouts
included). -/
inductive HttpResult where
  | ok (status : Nat) (body : Dataset)
  | exn
  deriving DecidableEq

/-- Outcome of an HTTP POST to `/write`: a response with a status code,
or a raised exception (timeouts included). -/
inductive WriteResp where
  | ok (status : Nat)
  | exn
  deriving DecidableEq

/-- `LatencyStats` dataclass: statistics for a set of latency
measurements. -/
structure LatencyStats where
  mean : ℚ
  median : ℚ
  min_val : ℚ
  max_val : ℚ
  deriving DecidableEq

/-- `write_key`: write a key-value pair and return the latency in
seconds, or -1 if the write failed.  The wire outcome and the measured
elapsed time are oracle inputs; the key and value do not influence the
result. -/
def write_key (resp : WriteResp) (elapsed : ℚ) : ℚ :=
  match resp with
  | .ok status => if status = 201 then elapsed else -1
  | .exn => -1

/-- The task-construction loop of `run_concurrent_writes`: for each of
`num_writes_per_key` iterations, for each key, one `(key, value)` task.
`mk_value` is the oracle for `f"value_{key}_{i}_{time.time()}"`. -/
def build_tasks (keys : List String) (num_writes_per_key : Nat)
    (mk_value : String → Nat → String) : List (String × String) :=
  (List.range num_writes_per_key).flatMap
    (fun i => keys.map (fun key => (key, mk_value key i)))

/-- `run_concurrent_writes`: run all tasks and return the list of
successful latencies (`latency >= 0` filter).  `resp` and `elapsed` are
oracles giving, per task index, the wire outcome and measured time. -/
def run_concurrent_writes (keys : List String) (num_writes_per_key : Nat)
    (mk_value : String → Nat → String)
    (resp : Nat → WriteResp) (elapsed : Nat → ℚ) : List ℚ :=
  let tasks := build_tasks keys num_writes_per_key mk_value
  let results := (List.range tasks.length).map (fun j => write_key (resp j) (elapsed j))
  results.filter (fun l => decide (0 ≤ l))

/-- `statistics.mean`: arithmetic mean. -/
def mean (l : List ℚ) : ℚ := l.sum / l.length

/-- `statistics.median`: middle element of the sorted data for odd
length, average of the two middle elements for even length. -/
def median (l : List ℚ) : ℚ :=
  let s := l.insertionSort (· ≤ ·)
  if l.length % 2 = 1 then s.getD (l.length / 2) 0
  else (s.getD (l.length / 2 - 1) 0 + s.getD (l.length / 2) 0) / 2

/-- `calculate_stats`: latency statistics; the empty sample set yields
the all-zero record. -/
def calculate_stats (latencies : List ℚ) : LatencyStats :=
  match latencies with
  | [] => ⟨0, 0, 0, 0⟩
  | x :: xs =>
    { mean := mean (x :: xs)
      median := median (x :: xs)
      min_val := xs.foldl min x
      max_val := xs.foldl max x }

/-- `get_all_data`: dataset from a node's `/dump`; any non-200 status
or exception yields the empty mapping. -/
def get_all_data (resp : HttpResult) : Dataset :=
  match resp with
  | .ok status body => if status = 200 then body else []
  | .exn => []

/-- Whether a `/dump` call failed (non-200 status, exception, or
timeout). -/
def dump_failed : HttpResult → Bool
  | .ok status _ => status != 200
  | .exn => true

/-- The `if keys:` restriction step of `check_consistency`: Python
truthiness, so `None` and the empty list both leave the leader data
unrestricted; a non-empty list keeps only entries whose key is in it. -/
def filter_leader (keys : Option (List String)) (leader_data : Dataset) : Dataset :=
  match keys with
  | none => leader_data
  | some ks =>
    if ks.isEmpty then leader_data
    else leader_data.filter (fun kv => decide (kv.1 ∈ ks))

/-- The classification loop of `check_consistency` over the leader's
entries: returns `(matching_count, mismatched_values, missing_keys)`;
each leader key is missing if the follower lacks it, matching if the
follower holds an identical value, mismatched otherwise. -/
def classifyKeys (follower_data : Dataset) : Dataset → Nat × List String × List String
  | [] => (0, [], [])
  | (k, v) :: rest =>
    let r := classifyKeys follower_data rest
    match dict_get follower_data k with
    | none => (r.1, r.2.1, k :: r.2.2)
    | some fv => if fv = v then (r.1 + 1, r.2.1, r.2.2) else (r.1, k :: r.2.1, r.2.2)

/-- One entry of the consistency report's `followers` list. -/
structure FollowerReport where
  follower : String
  keys : Nat
  matches_leader : Bool
  matching_count : Nat
  mismatched_values : Nat
  missing_keys : Nat
  mismatched_examples : List String
  deriving DecidableEq

/-- The per-follower report body built inside the `check_consistency`
loop for follower number `i`. -/
def follower_report (i : Nat) (leader_data follower_data : Dataset) : FollowerReport :=
  let c := classifyKeys follower_data leader_data
  { follower := "f" ++ toString i
    keys := follower_data.length
    matches_leader := c.2.1.length = 0 && c.2.2.length = 0
    matching_count := c.1
    mismatched_values := c.2.1.length
    missing_keys := c.2.2.length
    mismatched_examples := c.2.1.take 3 }

/-- The `for i, url in enumerate(FOLLOWER_URLS, 1)` loop: one report
per follower response, numbered from `i`. -/
def followers_reports (i : Nat) (leader_data : Dataset) :
    List HttpResult → List FollowerReport
  | [] => []
  | r :: rest =>
    follower_report i leader_data (get_all_data r) ::
      followers_reports (i + 1) leader_data rest

/-- The dictionary returned by `check_consistency`. -/
structure ConsistencyReport where
  leader_keys : Nat
  followers : List FollowerReport
  deriving DecidableEq

/-- `check_consistency`: fetch the leader's dataset, optionally
restrict it to `keys`, and classify every leader key against every
follower's dataset.  The leader's and each follower's HTTP outcomes are
oracle inputs (one per configured follower URL, in order). -/
def check_consistency (keys : Option (List String)) (leader_resp : HttpResult)
    (follower_resps : List HttpResult) : ConsistencyReport :=
  let leader_data := filter_leader keys (get_all_data leader_resp)
  { leader_keys := leader_data.length
    followers := followers_reports 1 leader_data follower_resps }

/-- The consistency-percentage computation of `run_analysis`:
`total_matching / (leader_keys * follower_count) * 100`, or `0` when
the denominator is not positive. -/
def consistency_pct (r : ConsistencyReport) : ℚ :=
  let total_keys_checked : ℕ := r.leader_keys * r.followers.length
  let total_matching : ℕ := (r.followers.map (fun f => f.matching_count)).sum
  if total_keys_checked > 0 then
    (total_matching : ℚ) / (total_keys_checked : ℚ) * 100
  else 0

/-- The key construction of `run_analysis`: `key_0 .. key_{n-1}`. -/
def mk_keys (num_keys : Nat) : List String :=
  (List.range num_keys).map (fun i => "key_" ++ toString i)

/-- The remote system's behaviour during a sweep, as oracles indexed by
the quorum value being tested (and, for writes, the task index). -/
structure Env where
  set_quorum : Nat → Bool
  write_resp : Nat → Nat → WriteResp
  write_elapsed : Nat → Nat → ℚ
  mk_value : Nat → String → Nat → String
  leader_resp : Nat → HttpResult
  follower_resps : Nat → List HttpResult

/-- The quorum-sweep loop of `run_analysis`: for each quorum value in
order, skip it entirely if `set_quorum` fails; otherwise run the write
load, record latency stats when any write succeeded, and record the
consistency report together with its consistency percentage.  Returns
`(all_stats, all_consistency)` as ordered association lists. -/
def run_analysis (env : Env) (num_keys num_writes_per_key : Nat) :
    List Nat → List (Nat × LatencyStats) × List (Nat × (ConsistencyReport × ℚ))
  | [] => ([], [])
  | quorum :: rest_quorums =>
    let rest := run_analysis env num_keys num_writes_per_key rest_quorums
    if env.set_quorum quorum then
      let keys := mk_keys num_keys
      let latencies := run_concurrent_writes keys num_writes_per_key
        (env.mk_value quorum) (env.write_resp quorum) (env.write_elapsed quorum)
      let all_stats :=
        if latencies.isEmpty then rest.1
        else (quorum, calculate_stats latencies) :: rest.1
      let consistency := check_consistency (some keys)
        (env.leader_resp quorum) (env.follower_resps quorum)
      (all_stats, (quorum, (consistency, consistency_pct consistency)) :: rest.2)
    else rest

/-- A concrete sweep environment in which every remote operation
succeeds except `set_quorum 2`, which fails. -/
def quorum2FailsEnv : Env where
  set_quorum := fun q => q != 2
  write_resp := fun _ _ => .ok 201
  write_elapsed := fun _ _ => 1
  mk_value := fun _ key i => "value_" ++ key ++ "_" ++ toString i
  leader_resp := fun _ => .ok 200 []
  follower_resps := fun _ => []

/-! ### Helper lemmas -/

theorem classifyKeys_sum (fd ld : Dataset) :
    (classifyKeys fd ld).1 + (classifyKeys fd ld).2.1.length
      + (classifyKeys fd ld).2.2.length = ld.length := by
  induction ld with
  | nil => rfl
  | cons kv rest ih =>
    obtain ⟨k, v⟩ := kv
    simp only [classifyKeys]
    cases h : dict_get fd k with
    | none => simpa using by omega
    | some fv =>
      by_cases hv : fv = v <;> simp [hv] <;> omega

theorem classifyKeys_matching_le (fd ld : Dataset) :
    (classifyKeys fd ld).1 ≤ ld.length := by
  have := classifyKeys_sum fd ld
  omega

theorem classifyKeys_all_match (fd : Dataset) : ∀ ld : Dataset,
    (classifyKeys fd ld).2.1 = [] → (classifyKeys fd ld).2.2 = [] →
    ∀ kv ∈ ld, dict_get fd kv.1 = some kv.2
  | [], _, _ => by simp
  | (k, v) :: rest, hmm, hms => by
    intro kv hkv
    revert hmm hms
    simp only [classifyKeys]
    cases h : dict_get fd k with
    | none => intro _ hms; simp at hms
    | some fv =>
      by_cases hv : fv = v
      · subst hv
        simp only [if_pos rfl]
        intro hmm hms
        rcases List.mem_cons.mp hkv with hkv | hkv
        · subst hkv; exact h
        · exact classifyKeys_all_match fd rest hmm hms kv hkv
      · intro hmm; simp [hv] at hmm

theorem classifyKeys_nil_follower : ∀ ld : Dataset,
    classifyKeys [] ld = (0, [], ld.map Prod.fst)
  | [] => rfl
  | (k, v) :: rest => by
    simp only [classifyKeys, dict_get, classifyKeys_nil_follower rest, List.map_cons]

theorem followers_reports_length (ld : Dataset) :
    ∀ (frs : List HttpResult) (i : Nat), (followers_reports i ld frs).length = frs.length
  | [], _ => rfl
  | _ :: rest, i => by
    simp [followers_reports, followers_reports_length ld rest (i + 1)]

theorem followers_reports_getElem? (ld : Dataset) :
    ∀ (frs : List HttpResult) (i j : Nat),
      (followers_reports i ld frs)[j]?
        = (frs[j]?).map (fun r => follower_report (i + j) ld (get_all_data r))
  | [], _, _ => by simp [followers_reports]
  | r :: rest, i, 0 => by simp [followers_reports]
  | r :: rest, i, j + 1 => by
    simp only [followers_reports, List.getElem?_cons_succ]
    rw [followers_reports_getElem? ld rest (i + 1) j]
    have h : i + 1 + j = i + (j + 1) := by omega
    rw [h]

theorem mem_followers_reports (ld : Dataset) :
    ∀ (frs : List HttpResult) (i : Nat) (e : FollowerReport),
      e ∈ followers_reports i ld frs →
      ∃ n fd, e = follower_report n ld fd
  | [], _, _, h => by simp [followers_reports] at h
  | r :: rest, i, e, h => by
    rcases List.mem_cons.mp h with h | h
    · exact ⟨i, get_all_data r, h⟩
    · exact mem_followers_reports ld rest (i + 1) e h

theorem mem_check_consistency_followers (keys : Option (List String))
    (leader_resp : HttpResult) (follower_resps : List HttpResult)
    (e : FollowerReport)
    (he : e ∈ (check_consistency keys leader_resp follower_resps).followers) :
    ∃ n fd, e = follower_report n
      (filter_leader keys (get_all_data leader_resp)) fd :=
  mem_followers_reports _ follower_resps 1 e he

theorem foldl_min_mem : ∀ (xs : List ℚ) (a : ℚ), xs.foldl min a ∈ a :: xs
  | [], a => by simp
  | x :: xs, a => by
    have h := foldl_min_mem xs (min a x)
    rcases min_choice a x with hc | hc <;>
      rcases List.mem_cons.mp h with h | h <;>
      simp_all [List.foldl_cons]

theorem foldl_min_le : ∀ (xs : List ℚ) (a : ℚ), ∀ x ∈ a :: xs, xs.foldl min a ≤ x
  | [], a => by simp
  | x :: xs, a => by
    intro y hy
    have h := foldl_min_le xs (min a x)
    rcases List.mem_cons.mp hy with hy | hy
    · rw [hy]; exact le_trans (h _ (List.mem_cons_self _ _)) (min_le_left a x)
    · rcases List.mem_cons.mp hy with hy | hy
      · rw [hy]; exact le_trans (h _ (List.mem_cons_self _ _)) (min_le_right a x)
      · exact h y (List.mem_cons_of_mem _ hy)

theorem foldl_max_mem : ∀ (xs : List ℚ) (a : ℚ), xs.foldl max a ∈ a :: xs
  | [], a => by simp
  | x :: xs, a => by
    have h := foldl_max_mem xs (max a x)
    rcases max_choice a x with hc | hc <;>
      rcases List.mem_cons.mp h with h | h <;>
      simp_all [List.foldl_cons]

theorem le_foldl_max : ∀ (xs : List ℚ) (a : ℚ), ∀ x ∈ a :: xs, x ≤ xs.foldl max a
  | [], a => by simp
  | x :: xs, a => by
    intro y hy
    have h := le_foldl_max xs (max a x)
    rcases List.mem_cons.mp hy with hy | hy
    · rw [hy]; exact le_trans (le_max_left a x) (h _ (List.mem_cons_self _ _))
    · rcases List.mem_cons.mp hy with hy | hy
      · rw [hy]; exact le_trans (le_max_right a x) (h _ (List.mem_cons_self _ _))
      · exact h y (List.mem_cons_of_mem _ hy)

theorem follower_report_matches_iff (n : Nat) (ld fd : Dataset) :
    (follower_report n ld fd).matches_leader = true
      ↔ ((follower_report n ld fd).mismatched_values = 0
          ∧ (follower_report n ld fd).missing_keys = 0) := by
  simp [follower_report]

theorem follower_report_consistent_values (n : Nat) (ld fd : Dataset)
    (h : (follower_report n ld fd).matches_leader = true) :
    ∀ kv ∈ ld, dict_get fd kv.1 = some kv.2 := by
  rw [follower_report_matches_iff] at h
  have h1 : (classifyKeys fd ld).2.1 = [] :=
    List.length_eq_zero.mp h.1
  have h2 : (classifyKeys fd ld).2.2 = [] :=
    List.length_eq_zero.mp h.2
  exact classifyKeys_all_match fd ld h1 h2

/-! ### Claim theorems -/

/-- C8: `calculate_stats` returns the arithmetic mean, the
conventional statistical median (middle element of a sorted
rearrangement for odd counts, average of the two middle elements for
even counts), the minimum and the maximum of the sample list; the
empty list yields the all-zero record, and `stats([1,2,3])` is
`{mean:2, median:2, min:1, max:3}`. -/
theorem C8_calculate_stats_reference (l : List ℚ) (h : l ≠ []) :
    calculate_stats [] = ⟨0, 0, 0, 0⟩
    ∧ (calculate_stats l).mean = l.sum / l.length
    ∧ (calculate_stats l).min_val ∈ l
    ∧ (∀ x ∈ l, (calculate_stats l).min_val ≤ x)
    ∧ (calculate_stats l).max_val ∈ l
    ∧ (∀ x ∈ l, x ≤ (calculate_stats l).max_val)
    ∧ (∃ s : List ℚ, s.Perm l ∧ s.Sorted (· ≤ ·) ∧
        (calculate_stats l).median =
          (if l.length % 2 = 1 then s.getD (l.length / 2) 0
           else (s.getD (l.length / 2 - 1) 0 + s.getD (l.length / 2) 0) / 2))
    ∧ calculate_stats [1, 2, 3] = ⟨2, 2, 1, 3⟩ := by
  obtain ⟨x, xs, rfl⟩ := List.exists_cons_of_ne_nil h
  refine ⟨rfl, rfl, foldl_min_mem xs x, foldl_min_le xs x, foldl_max_mem xs x,
    le_foldl_max xs x, ?_, ?_⟩
  · exact ⟨(x :: xs).insertionSort (· ≤ ·), List.perm_insertionSort _ _,
      List.sorted_insertionSort _ _, rfl⟩
  · norm_num [calculate_stats, mean, median, List.insertionSort, List.orderedInsert]

/-- Witness for C8 at the sample list `[1,2,3]`. -/
theorem C8_calculate_stats_reference_witness :
    ([1, 2, 3] : List ℚ) ≠ []
    ∧ calculate_stats [1, 2, 3] = ⟨2, 2, 1, 3⟩ :=
  ⟨by simp, (C8_calculate_stats_reference [1, 2, 3] (by simp)).2.2.2.2.2.2.2⟩

/-- C3: every follower entry of a consistency report partitions the
checked leader keys into the three buckets, so that
`matching_count + mismatched_values + missing_keys = leader_keys`; on
leader `{a:1, b:2, c:3}` and follower `{a:1, b:9}` the classification
yields matching count 1, mismatched `[b]`, missing `[c]`, and the
reported follower entry is not fully consistent. -/
theorem C3_bucket_partition (keys : Option (List String)) (leader_resp : HttpResult)
    (follower_resps : List HttpResult) (e : FollowerReport)
    (he : e ∈ (check_consistency keys leader_resp follower_resps).followers) :
    (e.matching_count + e.mismatched_values + e.missing_keys
      = (check_consistency keys leader_resp follower_resps).leader_keys)
    ∧ (classifyKeys [("a", "1"), ("b", "9")] [("a", "1"), ("b", "2"), ("c", "3")]
        = (1, ["b"], ["c"]))
    ∧ ((check_consistency none (.ok 200 [("a", "1"), ("b", "2"), ("c", "3")])
          [.ok 200 [("a", "1"), ("b", "9")]]).followers
        = [{ follower := "f1", keys := 2, matches_leader := false,
             matching_count := 1, mismatched_values := 1, missing_keys := 1,
             mismatched_examples := ["b"] }]) := by
  obtain ⟨n, fd, rfl⟩ :=
    mem_check_consistency_followers keys leader_resp follower_resps e he
  refine ⟨?_, by decide, by decide⟩
  show (classifyKeys fd _).1 + (classifyKeys fd _).2.1.length
      + (classifyKeys fd _).2.2.length = _
  exact classifyKeys_sum fd _

/-- Witness for C3: the single follower entry of the example report. -/
theorem C3_bucket_partition_witness :
    ({ follower := "f1", keys := 2, matches_leader := false,
       matching_count := 1, mismatched_values := 1, missing_keys := 1,
       mismatched_examples := ["b"] } : FollowerReport)
      ∈ (check_consistency none (.ok 200 [("a", "1"), ("b", "2"), ("c", "3")])
          [.ok 200 [("a", "1"), ("b", "9")]]).followers
    ∧ (1 + 1 + 1 : Nat)
      = (check_consistency none (.ok 200 [("a", "1"), ("b", "2"), ("c", "3")])
          [.ok 200 [("a", "1"), ("b", "9")]]).leader_keys := by
  have hmem : (⟨"f1", 2, false, 1, 1, 1, ["b"]⟩ : FollowerReport)
      ∈ (check_consistency none (.ok 200 [("a", "1"), ("b", "2"), ("c", "3")])
          [.ok 200 [("a", "1"), ("b", "9")]]).followers := by decide
  exact ⟨hmem, (C3_bucket_partition none _ _ _ hmem).1⟩

/-- C4: a follower entry reports `matches_leader` true iff its
mismatched and missing buckets are both empty, and in that case the
follower's dataset holds the leader's value for every checked leader
key. -/
theorem C4_fully_consistent (keys : Option (List String)) (leader_resp : HttpResult)
    (follower_resps : List HttpResult) (i : Nat) (e : FollowerReport)
    (he : (check_consistency keys leader_resp follower_resps).followers[i]? = some e) :
    (e.matches_leader = true ↔ (e.mismatched_values = 0 ∧ e.missing_keys = 0))
    ∧ (e.matches_leader = true →
        ∀ r, follower_resps[i]? = some r →
          ∀ kv ∈ filter_leader keys (get_all_data leader_resp),
            dict_get (get_all_data r) kv.1 = some kv.2) := by
  rw [show (check_consistency keys leader_resp follower_resps).followers
      = followers_reports 1 (filter_leader keys (get_all_data leader_resp))
          follower_resps from rfl,
    followers_reports_getElem?] at he
  cases hr : follower_resps[i]? with
  | none => rw [hr] at he; simp at he
  | some r =>
    rw [hr] at he
    simp only [Option.map_some'] at he
    obtain rfl := (Option.some.injEq _ _).mp he.symm
    refine ⟨follower_report_matches_iff _ _ _, ?_⟩
    intro hml r2 hr2 kv hkv
    have hrr : r = r2 := (Option.some.injEq _ _).mp hr2
    subst hrr
    exact follower_report_consistent_values _ _ _ hml kv hkv

/-- Witness for C4 at a fully consistent concrete follower. -/
theorem C4_fully_consistent_witness :
    ((check_consistency none (.ok 200 [("a", "1")]) [.ok 200 [("a", "1")]]).followers[0]?
      = some { follower := "f1", keys := 1, matches_leader := true,
               matching_count := 1, mismatched_values := 0, missing_keys := 0,
               mismatched_examples := [] })
    ∧ dict_get (get_all_data (.ok 200 [("a", "1")])) "a" = some "1" := by
  have hget : (check_consistency none (.ok 200 [("a", "1")]) [.ok 200 [("a", "1")]]).followers[0]?
      = some { follower := "f1", keys := 1, matches_leader := true,
               matching_count := 1, mismatched_values := 0, missing_keys := 0,
               mismatched_examples := [] } := by decide
  refine ⟨hget, ?_⟩
  exact (C4_fully_consistent none (.ok 200 [("a", "1")]) [.ok 200 [("a", "1")]] 0 _ hget).2
    rfl (.ok 200 [("a", "1")]) rfl ("a", "1") (by decide)

/-- C9: a failed dump (non-200 status or exception) degrades to the
empty dataset, and a follower whose dump failed is still classified,
with every checked leader key reported missing, zero matches and zero
mismatches. -/
theorem C9_dump_failure_degrades (resp : HttpResult) (hfail : dump_failed resp = true)
    (keys : Option (List String)) (leader_resp : HttpResult)
    (follower_resps : List HttpResult) (i : Nat)
    (hi : follower_resps[i]? = some resp) :
    get_all_data resp = []
    ∧ (check_consistency keys leader_resp follower_resps).followers[i]?
        = some { follower := "f" ++ toString (i + 1),
                 keys := 0,
                 matches_leader :=
                   decide ((check_consistency keys leader_resp follower_resps).leader_keys = 0),
                 matching_count := 0,
                 mismatched_values := 0,
                 missing_keys := (check_consistency keys leader_resp follower_resps).leader_keys,
                 mismatched_examples := [] } := by
  have hempty : get_all_data resp = [] := by
    cases resp with
    | exn => rfl
    | ok status body =>
      have hs : status ≠ 200 := by
        intro h
        subst h
        simp [dump_failed] at hfail
      simp [get_all_data, hs]
  refine ⟨hempty, ?_⟩
  rw [show (check_consistency keys leader_resp follower_resps).followers
      = followers_reports 1 (filter_leader keys (get_all_data leader_resp))
          follower_resps from rfl,
    followers_reports_getElem?, hi]
  simp only [Option.map_some', Option.some.injEq]
  rw [hempty, Nat.add_comm 1 i]
  simp [follower_report, classifyKeys_nil_follower, check_consistency]

/-- Witness for C9: a follower answering 500 on `/dump`. -/
theorem C9_dump_failure_degrades_witness :
    dump_failed (.ok 500 [("a", "1")]) = true
    ∧ ((.ok 500 [("a", "1")] : HttpResult) :: [])[0]? = some (.ok 500 [("a", "1")])
    ∧ (check_consistency none (.ok 200 [("a", "1")]) [.ok 500 [("a", "1")]]).followers[0]?
        = some { follower := "f" ++ toString (0 + 1),
                 keys := 0,
                 matches_leader :=
                   decide ((check_consistency none (.ok 200 [("a", "1")])
                     [.ok 500 [("a", "1")]]).leader_keys = 0),
                 matching_count := 0,
                 mismatched_values := 0,
                 missing_keys := (check_consistency none (.ok 200 [("a", "1")])
                   [.ok 500 [("a", "1")]]).leader_keys,
                 mismatched_examples := [] } :=
  ⟨rfl, rfl,
    (C9_dump_failure_degrades (.ok 500 [("a", "1")]) rfl none (.ok 200 [("a", "1")])
      [.ok 500 [("a", "1")]] 0 rfl).2⟩

/-- C10: a consistency report holds exactly one follower entry per
configured follower response, in order, with identifiers `f1`, `f2`,
…, `fN`. -/
theorem C10_follower_enumeration (keys : Option (List String)) (leader_resp : HttpResult)
    (follower_resps : List HttpResult) :
    ((check_consistency keys leader_resp follower_resps).followers.length
        = follower_resps.length)
    ∧ ∀ i : Nat, i < follower_resps.length →
        ((check_consistency keys leader_resp follower_resps).followers[i]?).map
            (fun e => e.follower)
          = some ("f" ++ toString (i + 1)) := by
  refine ⟨followers_reports_length _ _ _, fun i hi => ?_⟩
  rw [show (check_consistency keys leader_resp follower_resps).followers
      = followers_reports 1 (filter_leader keys (get_all_data leader_resp))
          follower_resps from rfl,
    followers_reports_getElem?, List.getElem?_eq_getElem hi]
  simp only [Option.map_some', Option.some.injEq, follower_report]
  rw [Nat.add_comm 1 i]

/-- Witness for C10 on a two-follower configuration. -/
theorem C10_follower_enumeration_witness :
    ((check_consistency none .exn [.exn, .exn]).followers.length = 2)
    ∧ ((check_consistency none .exn [.exn, .exn]).followers[1]?).map
        (fun e => e.follower) = some ("f" ++ toString 2) :=
  ⟨(C10_follower_enumeration none .exn [.exn, .exn]).1,
    (C10_follower_enumeration none .exn [.exn, .exn]).2 1 (by decide)⟩

theorem check_consistency_matching_le (keys : Option (List String))
    (leader_resp : HttpResult) (follower_resps : List HttpResult) :
    ∀ e ∈ (check_consistency keys leader_resp follower_resps).followers,
      e.matching_count
        ≤ (check_consistency keys leader_resp follower_resps).leader_keys := by
  intro e he
  obtain ⟨n, fd, rfl⟩ :=
    mem_check_consistency_followers keys leader_resp follower_resps e he
  exact classifyKeys_matching_le fd _

theorem check_consistency_sum_matching_le (keys : Option (List String))
    (leader_resp : HttpResult) (follower_resps : List HttpResult) :
    ((check_consistency keys leader_resp follower_resps).followers.map
        (fun f => f.matching_count)).sum
      ≤ (check_consistency keys leader_resp follower_resps).leader_keys
        * (check_consistency keys leader_resp follower_resps).followers.length := by
  calc ((check_consistency keys leader_resp follower_resps).followers.map
        (fun f => f.matching_count)).sum
      ≤ ((check_consistency keys leader_resp follower_resps).followers.map
          (fun f => f.matching_count)).length
        • (check_consistency keys leader_resp follower_resps).leader_keys := by
        apply List.sum_le_card_nsmul
        intro x hx
        obtain ⟨e, he, rfl⟩ := List.mem_map.mp hx
        exact check_consistency_matching_le keys leader_resp follower_resps e he
    _ = (check_consistency keys leader_resp follower_resps).leader_keys
        * (check_consistency keys leader_resp follower_resps).followers.length := by
        rw [List.length_map, smul_eq_mul, Nat.mul_comm]

theorem consistency_pct_bounds (r : ConsistencyReport)
    (h : (r.followers.map (fun f => f.matching_count)).sum
      ≤ r.leader_keys * r.followers.length) :
    0 ≤ consistency_pct r ∧ consistency_pct r ≤ 100 := by
  unfold consistency_pct
  by_cases hd : r.leader_keys * r.followers.length > 0
  · simp only [if_pos hd]
    have hdq : (0 : ℚ) < ((r.leader_keys * r.followers.length : ℕ) : ℚ) := by
      exact_mod_cast hd
    have h1 : (((r.followers.map (fun f => f.matching_count)).sum : ℕ) : ℚ)
        ≤ ((r.leader_keys * r.followers.length : ℕ) : ℚ) := by exact_mod_cast h
    constructor
    · positivity
    · calc (((r.followers.map (fun f => f.matching_count)).sum : ℕ) : ℚ)
            / ((r.leader_keys * r.followers.length : ℕ) : ℚ) * 100
          ≤ 1 * 100 :=
            mul_le_mul_of_nonneg_right ((div_le_one hdq).mpr h1) (by norm_num)
        _ = 100 := one_mul 100
  · simp only [if_neg hd]
    norm_num

theorem consistency_pct_zero_denom (r : ConsistencyReport)
    (h : r.leader_keys * r.followers.length = 0) : consistency_pct r = 0 := by
  unfold consistency_pct
  simp [h]

theorem consistency_pct_pos_denom (r : ConsistencyReport)
    (h : 0 < r.leader_keys * r.followers.length) :
    consistency_pct r = (((r.followers.map (fun f => f.matching_count)).sum : ℕ) : ℚ)
      / ((r.leader_keys * r.followers.length : ℕ) : ℚ) * 100 := by
  unfold consistency_pct
  simp [h]

theorem run_analysis_consistency_entries (env : Env) (nk M : Nat) :
    ∀ (qs : List Nat) (entry : Nat × (ConsistencyReport × ℚ)),
      entry ∈ (run_analysis env nk M qs).2 →
      entry.2.1 = check_consistency (some (mk_keys nk))
          (env.leader_resp entry.1) (env.follower_resps entry.1)
        ∧ entry.2.2 = consistency_pct entry.2.1
  | [], entry, h => by simp [run_analysis] at h
  | q :: rest, entry, h => by
    by_cases hq : env.set_quorum q
    · rw [run_analysis] at h
      simp only [if_pos hq] at h
      rcases List.mem_cons.mp h with h | h
      · subst h
        exact ⟨rfl, rfl⟩
      · exact run_analysis_consistency_entries env nk M rest entry h
    · rw [run_analysis] at h
      simp only [if_neg hq] at h
      exact run_analysis_consistency_entries env nk M rest entry h

/-- C1: every consistency record produced by the sweep carries the
percentage `total_matching / (leader_keys × follower_count) × 100`; it
lies in `[0, 100]`, equals `0` (not an error) when the denominator is
`0`, and equals the division formula when the denominator is
positive. -/
theorem C1_consistency_percentage (env : Env) (nk M : Nat) (qs : List Nat)
    (entry : Nat × (ConsistencyReport × ℚ))
    (he : entry ∈ (run_analysis env nk M qs).2) :
    entry.2.2 = consistency_pct entry.2.1
    ∧ 0 ≤ entry.2.2 ∧ entry.2.2 ≤ 100
    ∧ (entry.2.1.leader_keys * entry.2.1.followers.length = 0 → entry.2.2 = 0)
    ∧ (0 < entry.2.1.leader_keys * entry.2.1.followers.length →
        entry.2.2 = (((entry.2.1.followers.map (fun f => f.matching_count)).sum : ℕ) : ℚ)
          / ((entry.2.1.leader_keys * entry.2.1.followers.length : ℕ) : ℚ) * 100) := by
  obtain ⟨hrep, hpct⟩ := run_analysis_consistency_entries env nk M qs entry he
  have hb := consistency_pct_bounds entry.2.1
    (by rw [hrep]; exact check_consistency_sum_matching_le _ _ _)
  refine ⟨hpct, hpct ▸ hb.1, hpct ▸ hb.2, ?_, ?_⟩
  · intro h0
    rw [hpct]
    exact consistency_pct_zero_denom entry.2.1 h0
  · intro hpos
    rw [hpct]
    exact consistency_pct_pos_denom entry.2.1 hpos

/-- Witness for C1: a one-quorum sweep against an empty leader with no
followers, whose record carries percentage 0. -/
theorem C1_consistency_percentage_witness :
    ((1, ((⟨0, []⟩ : ConsistencyReport), (0 : ℚ)))
        ∈ (run_analysis quorum2FailsEnv 0 0 [1]).2)
    ∧ (0 : ℚ) ≤ (1, ((⟨0, []⟩ : ConsistencyReport), (0 : ℚ))).2.2
    ∧ (1, ((⟨0, []⟩ : ConsistencyReport), (0 : ℚ))).2.2 ≤ 100 := by
  have hmem : (1, ((⟨0, []⟩ : ConsistencyReport), (0 : ℚ)))
      ∈ (run_analysis quorum2FailsEnv 0 0 [1]).2 := by
    rw [show (run_analysis quorum2FailsEnv 0 0 [1]).2
        = [(1, ((⟨0, []⟩ : ConsistencyReport), (0 : ℚ)))] from rfl]
    exact List.mem_singleton.mpr rfl
  have h := C1_consistency_percentage quorum2FailsEnv 0 0 [1] _ hmem
  exact ⟨hmem, h.2.1, h.2.2.1⟩

/-- C2 counterexample: with a provided empty key list,
`check_consistency` does not restrict the leader dataset (Python
truthiness treats `[]` like `None`), so the report is not over zero
leader keys. -/
theorem C2_counterexample :
    (check_consistency (some []) (.ok 200 [("a", "1")]) []).leader_keys = 1
    ∧ ¬ (check_consistency (some []) (.ok 200 [("a", "1")]) []).leader_keys = 0 := by
  decide

/-- C2 (amended): for every provided NON-EMPTY key list,
`check_consistency` restricts the leader dataset to exactly the keys
in that list before classification — the report equals the one
obtained from a leader dump already filtered to those keys, and
`leader_keys` counts exactly the leader entries whose key is in the
list; a provided empty list, however, behaves like no list at all (no
restriction). -/
theorem C2_keys_restriction (ks : List String) (hks : ks ≠ [])
    (leader_resp : HttpResult) (follower_resps : List HttpResult) :
    (check_consistency (some ks) leader_resp follower_resps
      = check_consistency none
          (.ok 200 ((get_all_data leader_resp).filter (fun kv => decide (kv.1 ∈ ks))))
          follower_resps)
    ∧ ((check_consistency (some ks) leader_resp follower_resps).leader_keys
        = ((get_all_data leader_resp).filter (fun kv => decide (kv.1 ∈ ks))).length)
    ∧ (∀ ld : Dataset, filter_leader (some []) ld = ld) := by
  have h : filter_leader (some ks) (get_all_data leader_resp)
      = (get_all_data leader_resp).filter (fun kv => decide (kv.1 ∈ ks)) := by
    cases ks with
    | nil => exact absurd rfl hks
    | cons a l => simp [filter_leader]
  refine ⟨?_, ?_, fun ld => rfl⟩
  · unfold check_consistency
    rw [h]
    simp [filter_leader, get_all_data]
  · show (filter_leader (some ks) (get_all_data leader_resp)).length = _
    rw [h]

/-- Witness for C2 (amended) on a two-key leader restricted to one
key. -/
theorem C2_keys_restriction_witness :
    (["a"] : List String) ≠ []
    ∧ (check_consistency (some ["a"]) (.ok 200 [("a", "1"), ("b", "2")]) []).leader_keys
      = ((get_all_data (.ok 200 [("a", "1"), ("b", "2")])).filter
          (fun kv => decide (kv.1 ∈ (["a"] : List String)))).length :=
  ⟨by simp,
    (C2_keys_restriction ["a"] (by simp) (.ok 200 [("a", "1"), ("b", "2")]) []).2.1⟩

theorem run_analysis_consistency_quorums (env : Env) (nk M : Nat) :
    ∀ qs : List Nat,
      (run_analysis env nk M qs).2.map Prod.fst
        = qs.filter (fun q => env.set_quorum q)
  | [] => by simp [run_analysis]
  | q :: rest => by
    have ih := run_analysis_consistency_quorums env nk M rest
    by_cases hq : env.set_quorum q
    · rw [run_analysis]
      simp [hq, ih, List.filter_cons]
    · rw [run_analysis]
      simp [hq, ih, List.filter_cons]

theorem run_analysis_stats_quorums (env : Env) (nk M : Nat) :
    ∀ (qs : List Nat) (q : Nat),
      q ∈ (run_analysis env nk M qs).1.map Prod.fst →
      env.set_quorum q = true ∧ q ∈ qs
  | [], q, h => by simp [run_analysis] at h
  | p :: rest, q, h => by
    by_cases hp : env.set_quorum p
    · rw [run_analysis] at h
      simp only [if_pos hp] at h
      by_cases hl : (run_concurrent_writes (mk_keys nk) M (env.mk_value p)
          (env.write_resp p) (env.write_elapsed p)).isEmpty
      · rw [if_pos hl] at h
        obtain ⟨hq, hmem⟩ := run_analysis_stats_quorums env nk M rest q h
        exact ⟨hq, List.mem_cons_of_mem p hmem⟩
      · rw [if_neg hl] at h
        simp only [List.map_cons, List.mem_cons] at h
        rcases h with h | h
        · constructor
          · rw [h]
            exact hp
          · rw [h]
            exact List.mem_cons_self p rest
        · obtain ⟨hq, hmem⟩ := run_analysis_stats_quorums env nk M rest q h
          exact ⟨hq, List.mem_cons_of_mem p hmem⟩
    · rw [run_analysis] at h
      simp only [if_neg hp] at h
      obtain ⟨hq, hmem⟩ := run_analysis_stats_quorums env nk M rest q h
      exact ⟨hq, List.mem_cons_of_mem p hmem⟩

/-- C5: the sweep processes quorum values in list order; a quorum
whose `set_quorum` call fails produces no latency record and no
consistency record, and the sweep continues: over `[1, 2, 3]` with
`set_quorum 2` failing, records exist exactly for quorums 1 and 3, in
that order. -/
theorem C5_skip_failed_quorum (env : Env) (nk M : Nat) (qs : List Nat) (q : Nat)
    (hq : env.set_quorum q = false) :
    ((run_analysis env nk M qs).2.map Prod.fst
      = qs.filter (fun p => env.set_quorum p))
    ∧ q ∉ (run_analysis env nk M qs).1.map Prod.fst
    ∧ q ∉ (run_analysis env nk M qs).2.map Prod.fst
    ∧ (run_analysis quorum2FailsEnv 1 1 [1, 2, 3]).2.map Prod.fst = [1, 3] := by
  refine ⟨run_analysis_consistency_quorums env nk M qs, ?_, ?_, by decide⟩
  · intro hmem
    have := (run_analysis_stats_quorums env nk M qs q hmem).1
    rw [hq] at this
    exact Bool.false_ne_true this
  · intro hmem
    rw [run_analysis_consistency_quorums env nk M qs] at hmem
    have := List.of_mem_filter hmem
    rw [hq] at this
    exact Bool.false_ne_true this

/-- Witness for C5: the `[1, 2, 3]` sweep with `set_quorum 2`
failing. -/
theorem C5_skip_failed_quorum_witness :
    quorum2FailsEnv.set_quorum 2 = false
    ∧ 2 ∉ (run_analysis quorum2FailsEnv 1 1 [1, 2, 3]).2.map Prod.fst
    ∧ (run_analysis quorum2FailsEnv 1 1 [1, 2, 3]).2.map Prod.fst = [1, 3] :=
  ⟨rfl,
    (C5_skip_failed_quorum quorum2FailsEnv 1 1 [1, 2, 3] 2 rfl).2.2.1,
    (C5_skip_failed_quorum quorum2FailsEnv 1 1 [1, 2, 3] 2 rfl).2.2.2⟩

theorem flatMap_range_length {β : Type} (f : Nat → List β) (N : Nat)
    (hf : ∀ i, (f i).length = N) :
    ∀ M : Nat, ((List.range M).flatMap f).length = M * N
  | 0 => by simp
  | M + 1 => by
    rw [List.range_succ, List.flatMap_append, List.length_append,
      flatMap_range_length f N hf M]
    simp [hf M, Nat.succ_mul]

theorem flatMap_range_getElem? {β : Type} (f : Nat → List β) (N : Nat)
    (hf : ∀ i, (f i).length = N) :
    ∀ (M i j : Nat), i < M → j < N →
      ((List.range M).flatMap f)[i * N + j]? = (f i)[j]?
  | 0, i, j, hi, _ => absurd hi (Nat.not_lt_zero i)
  | M + 1, i, j, hi, hj => by
    rw [List.range_succ, List.flatMap_append]
    rcases Nat.lt_or_ge i M with him | him
    · rw [List.getElem?_append_left, flatMap_range_getElem? f N hf M i j him hj]
      rw [flatMap_range_length f N hf M]
      calc i * N + j < i * N + N := Nat.add_lt_add_left hj _
        _ = (i + 1) * N := (Nat.succ_mul i N).symm
        _ ≤ M * N := Nat.mul_le_mul_right N him
    · have hieq : i = M := Nat.le_antisymm (Nat.lt_succ_iff.mp hi) him
      subst hieq
      have hlen : ((List.range i).flatMap f).length = i * N :=
        flatMap_range_length f N hf i
      rw [List.getElem?_append_right (by
        rw [hlen]
        exact Nat.le_add_right _ _)]
      have hidx : i * N + j - ((List.range i).flatMap f).length = j := by
        rw [hlen]
        omega
      rw [hidx]
      simp

theorem build_tasks_length (keys : List String) (num_writes_per_key : Nat)
    (mk_value : String → Nat → String) :
    (build_tasks keys num_writes_per_key mk_value).length
      = num_writes_per_key * keys.length := by
  unfold build_tasks
  exact flatMap_range_length _ keys.length (fun i => List.length_map _ _) _

theorem write_key_nonneg_iff (resp : WriteResp) (elapsed : ℚ) (h : 0 ≤ elapsed) :
    (0 ≤ write_key resp elapsed) ↔ resp = WriteResp.ok 201 := by
  cases resp with
  | exn => simp [write_key]
  | ok status =>
    by_cases hs : status = 201
    · subst hs
      simp [write_key, h]
    · simp [write_key, hs]

theorem run_concurrent_writes_length (keys : List String) (num_writes_per_key : Nat)
    (mk_value : String → Nat → String) (resp : Nat → WriteResp) (elapsed : Nat → ℚ)
    (h : ∀ j, 0 ≤ elapsed j) :
    (run_concurrent_writes keys num_writes_per_key mk_value resp elapsed).length
      = ((List.range (num_writes_per_key * keys.length)).filter
          (fun j => decide (resp j = WriteResp.ok 201))).length := by
  unfold run_concurrent_writes
  rw [List.filter_map, List.length_map, build_tasks_length]
  congr 1
  apply List.filter_congr
  intro j _
  simp only [Function.comp]
  exact decide_eq_decide.mpr (write_key_nonneg_iff (resp j) (elapsed j) (h j))

/-- C6: a failed write (non-201 status or exception) contributes no
sample, and no failure aborts the batch: the returned list holds
exactly one sample per write whose response was the created status
201, down to the empty list when every write fails. -/
theorem C6_failed_writes_dropped (keys : List String) (num_writes_per_key : Nat)
    (mk_value : String → Nat → String) (resp : Nat → WriteResp) (elapsed : Nat → ℚ)
    (h : ∀ j, 0 ≤ elapsed j) :
    ((run_concurrent_writes keys num_writes_per_key mk_value resp elapsed).length
      = ((List.range (num_writes_per_key * keys.length)).filter
          (fun j => decide (resp j = WriteResp.ok 201))).length)
    ∧ ((∀ j, resp j ≠ WriteResp.ok 201) →
        run_concurrent_writes keys num_writes_per_key mk_value resp elapsed = []) := by
  refine ⟨run_concurrent_writes_length keys num_writes_per_key mk_value resp elapsed h, ?_⟩
  intro hfail
  unfold run_concurrent_writes
  rw [List.filter_eq_nil_iff]
  intro a ha
  obtain ⟨j, _, rfl⟩ := List.mem_map.mp ha
  simp only [decide_eq_true_eq]
  intro hc
  exact hfail j ((write_key_nonneg_iff (resp j) (elapsed j) (h j)).mp hc)

/-- Witness for C6: two keys, two iterations, the even-indexed writes
succeed and the odd-indexed ones time out; two samples survive. -/
theorem C6_failed_writes_dropped_witness :
    (∀ j : Nat, (0 : ℚ) ≤ 1)
    ∧ ((run_concurrent_writes ["a", "b"] 2 (fun _ _ => "v")
          (fun j => if j % 2 = 0 then WriteResp.ok 201 else WriteResp.exn)
          (fun _ => 1)).length
        = ((List.range (2 * 2)).filter
            (fun j => decide ((if j % 2 = 0 then WriteResp.ok 201 else WriteResp.exn)
              = WriteResp.ok 201))).length) :=
  ⟨fun _ => by norm_num,
    (C6_failed_writes_dropped ["a", "b"] 2 (fun _ _ => "v")
      (fun j => if j % 2 = 0 then WriteResp.ok 201 else WriteResp.exn)
      (fun _ => 1) (fun _ => by norm_num)).1⟩

/-- C7: the workload builds exactly N×M tasks up front in
iteration-major order — the task at position `i·N + j` writes key `j`
of iteration `i` — and when every write succeeds the sample count is
exactly N×M. -/
theorem C7_task_construction (keys : List String) (num_writes_per_key : Nat)
    (mk_value : String → Nat → String) (resp : Nat → WriteResp) (elapsed : Nat → ℚ)
    (h : ∀ j, 0 ≤ elapsed j) :
    ((build_tasks keys num_writes_per_key mk_value).length
      = keys.length * num_writes_per_key)
    ∧ (∀ i j (hi : i < num_writes_per_key) (hj : j < keys.length),
        (build_tasks keys num_writes_per_key mk_value)[i * keys.length + j]?
          = some (keys.get ⟨j, hj⟩, mk_value (keys.get ⟨j, hj⟩) i))
    ∧ ((∀ j, resp j = WriteResp.ok 201) →
        (run_concurrent_writes keys num_writes_per_key mk_value resp elapsed).length
          = keys.length * num_writes_per_key) := by
  refine ⟨by rw [build_tasks_length, Nat.mul_comm], ?_, ?_⟩
  · intro i j hi hj
    unfold build_tasks
    rw [flatMap_range_getElem? _ keys.length (fun i => List.length_map _ _)
      num_writes_per_key i j hi hj]
    rw [List.getElem?_map, List.getElem?_eq_getElem hj]
    rfl
  · intro hall
    rw [run_concurrent_writes_length keys num_writes_per_key mk_value resp elapsed h]
    rw [List.filter_eq_self.mpr (fun j _ => decide_eq_true (hall j))]
    rw [List.length_range, Nat.mul_comm]

/-- Witness for C7: two keys and two iterations with every write
succeeding; the second task of iteration 1 is key "b". -/
theorem C7_task_construction_witness :
    (∀ j : Nat, (0 : ℚ) ≤ 1)
    ∧ ((build_tasks ["a", "b"] 2 (fun k i => k ++ toString i)).length = 2 * 2)
    ∧ ((build_tasks ["a", "b"] 2 (fun k i => k ++ toString i))[1 * 2 + 1]?
        = some ("b", "b" ++ toString 1))
    ∧ ((∀ j : Nat, WriteResp.ok 201 = WriteResp.ok 201) →
        (run_concurrent_writes ["a", "b"] 2 (fun k i => k ++ toString i)
          (fun _ => WriteResp.ok 201) (fun _ => 1)).length = 2 * 2) := by
  have h := C7_task_construction ["a", "b"] 2 (fun k i => k ++ toString i)
    (fun _ => WriteResp.ok 201) (fun _ => 1) (fun _ => by norm_num)
  exact ⟨fun _ => by norm_num, h.1,
    h.2.1 1 1 (by norm_num) (by norm_num), fun _ => h.2.2 (fun _ => rfl)⟩

end Replication
